import Mathlib

/-!
Verification of the scan-resolution and analytics core of the Holy QR code
generator (files src/js/redirect.js, the Firebase manager, the security
utilities and src/js/qr-generator.js) against its natural-language
specification.  JavaScript functions are shallowly embedded as executable
Lean definitions: machine state (Firebase availability, localStorage
contents, clock, randomness) is passed explicitly, fallible operations
return Except, and browser built-ins (URL parsing, atob, JSON.parse,
decodeURIComponent, HTML escaping) are modelled by pure functions that
follow the platform behaviour on the inputs treated here.
-/

namespace QRCore

/-- A stored QR record, mirroring the object literal built in
FirebaseManager.createQRCode (fields id, name, originalText, logoPath,
scanCount, createdAt, lastScanned). -/
structure QRRecord where
  id : String
  name : String
  originalText : String
  logoPath : Option String
  scanCount : Nat
  createdAt : Nat
  lastScanned : Option Nat
deriving DecidableEq, Repr

/-! ## RateLimiter (src/unnamed/part_002, lines 72-125)

The JS class keeps a Map from user id to a list of request timestamps.
The Map is embedded as an association list; Map.prototype.set replaces the
value of an existing key in place and appends new keys at the end, which
rlSet reproduces.  Times are Nat milliseconds; the JS filter condition
now - time < timeWindow agrees with Nat truncated subtraction for
timestamps not exceeding now, and both retain any timestamp larger than
now, so no behaviour is lost by using Nat. -/

abbrev RLMap := List (String × List Nat)

/-- Lookup of this.requests.get(userId) with the JS default of an empty
list when the key is absent. -/
def rlGet (m : RLMap) (u : String) : List Nat :=
  match m.find? (fun p => p.1 == u) with
  | some p => p.2
  | none => []

/-- this.requests.set(userId, l): replace an existing binding in place,
otherwise append the new binding. -/
def rlSet : RLMap → String → List Nat → RLMap
  | [], u, l => [(u, l)]
  | (k, v) :: rest, u, l =>
      if k == u then (u, l) :: rest else (k, v) :: rlSet rest u l

/-- this.timeWindow = 60000 (one minute in milliseconds). -/
def rlTimeWindow : Nat := 60000

/-- this.maxRequests = 10 (requests per minute). -/
def rlMaxRequests : Nat := 10

/-- RateLimiter.canMakeRequest(userId): prune timestamps outside the
sliding window, refuse when at least maxRequests remain, otherwise record
the current time and allow.  Returns the result together with the updated
map (the JS method mutates this.requests only on the allow path). -/
def canMakeRequest (now : Nat) (userId : String) (m : RLMap) : Bool × RLMap :=
  let userRequests := rlGet m userId
  let recentRequests := userRequests.filter (fun t => now - t < rlTimeWindow)
  if rlMaxRequests ≤ recentRequests.length then
    (false, m)
  else
    (true, rlSet m userId (recentRequests ++ [now]))

/-- RateLimiter.getRemainingRequests(userId): Math.max(0, max - recent),
computed without mutating the map. -/
def getRemainingRequests (now : Nat) (userId : String) (m : RLMap) : Nat :=
  let recentRequests := (rlGet m userId).filter (fun t => now - t < rlTimeWindow)
  rlMaxRequests - recentRequests.length

/-- Run canMakeRequest once per listed time for the default anonymous
actor (the generator calls it with no argument, so userId defaults to
the string anonymous), threading the map through the calls. -/
def runCalls : List Nat → RLMap → List Bool × RLMap
  | [], m => ([], m)
  | t :: ts, m =>
      let r := canMakeRequest t "anonymous" m
      let rest := runCalls ts r.2
      (r.1 :: rest.1, rest.2)

/-! ## IdentifierGenerator (src/unnamed/part_002, lines 489-493)

generateUniqueId concatenates Date.now().toString(36), an underscore and
Math.random().toString(36).substr(2, 9).  Number.prototype.toString(36)
on the integer timestamp is the plain base-36 numeral; on the random
value in [0,1) it yields the string 0 when the value is zero and
otherwise 0. followed by the base-36 digits of the fraction (every
double has a finite base-36 expansion).  The random draw is therefore
embedded as the digit list of that expansion. -/

/-- Base-36 digit characters 0-9, a-z as produced by Number.toString(36). -/
def digitChar36 (n : Nat) : Char :=
  if n < 10 then Char.ofNat ('0'.toNat + n) else Char.ofNat ('a'.toNat + (n - 10))

def natToBase36Core : Nat → Nat → List Char → List Char
  | 0, _, acc => acc
  | fuel + 1, n, acc =>
      if n = 0 then acc else natToBase36Core fuel (n / 36) (digitChar36 (n % 36) :: acc)

/-- Date.now().toString(36): base-36 numeral of a natural number. -/
def natToBase36 (n : Nat) : String :=
  if n = 0 then "0" else String.mk (natToBase36Core (n + 1) n [])

/-- String.prototype.substr(start, len) on a character list. -/
def jsSubstrL (s : List Char) (start len : Nat) : List Char :=
  (s.drop start).take len

/-- Math.random().toString(36) given the base-36 fraction digits of the
drawn double: 0 for the value zero, otherwise 0. followed by the digits. -/
def mathRandomToString36L (fracDigits : List Char) : List Char :=
  if fracDigits = [] then ['0'] else '0' :: '.' :: fracDigits

/-- FirebaseManager.generateUniqueId(), with the clock reading and the
random draw passed in explicitly. -/
def generateUniqueId (nowMs : Nat) (fracDigits : List Char) : String :=
  natToBase36 nowMs ++ "_" ++ String.mk (jsSubstrL (mathRandomToString36L fracDigits) 2 9)

/-! ## SecurityUtils.escapeHTML and sanitizeText (src/unnamed/part_001, lines 38-69)

escapeHTML routes the text through a detached div (textContent then
innerHTML), which escapes ampersand, the angle brackets and the
non-breaking space in the serialisation; every other character is
returned unchanged. -/

def escapeHTMLChar (c : Char) : List Char :=
  if c = '&' then ['&', 'a', 'm', 'p', ';']
  else if c = '<' then ['&', 'l', 't', ';']
  else if c = '>' then ['&', 'g', 't', ';']
  else if c = Char.ofNat 160 then ['&', 'n', 'b', 's', 'p', ';']
  else [c]

/-- SecurityUtils.escapeHTML: the empty string is falsy and short-circuits,
otherwise the DOM escape above is applied character by character. -/
def escapeHTML (s : String) : String :=
  if s = "" then "" else String.mk ((s.toList.map escapeHTMLChar).flatten)

/-- Case-insensitive literal prefix stripping, the building block for the
gi-flagged regular expression replacements below. -/
def stripPrefixCI : List Char → List Char → Option (List Char)
  | [], s => some s
  | _ :: _, [] => none
  | p :: ps, c :: cs => if p.toLower = c.toLower then stripPrefixCI ps cs else none

/-- Left-to-right non-overlapping removal of every case-insensitive
occurrence of a literal pattern, as String.prototype.replace with a
gi-flagged literal regular expression performs.  The fuel argument is set
to the input length plus one by the wrapper and never runs out. -/
def removeAllCIAux (pat : List Char) : Nat → List Char → List Char
  | 0, s => s
  | _ + 1, [] => []
  | fuel + 1, c :: rest =>
      match stripPrefixCI pat (c :: rest) with
      | some r => removeAllCIAux pat fuel r
      | none => c :: removeAllCIAux pat fuel rest

def removeAllCI (pat s : String) : String :=
  String.mk (removeAllCIAux pat.toList (s.length + 1) s.toList)

/-- The word characters of the regular expression class backslash-w. -/
def isWordChar (c : Char) : Bool := c.isAlphanum || c = '_'

/-- The whitespace class backslash-s restricted to the code points that
can occur in the strings treated here (ASCII whitespace and nbsp). -/
def isJsSpace (c : Char) : Bool :=
  c = ' ' || c = '\t' || c = '\n' || c = '\r' ||
  c = Char.ofNat 12 || c = Char.ofNat 11 || c = Char.ofNat 160

/-- Match of the event-handler pattern on-word-equals at the head of the
list: on, one or more word characters, optional whitespace, equals sign.
The greedy runs are deterministic because word characters, whitespace and
the equals sign are pairwise disjoint. -/
def matchOnHandler (s : List Char) : Option (List Char) :=
  match stripPrefixCI ['o', 'n'] s with
  | none => none
  | some r =>
      if r.takeWhile isWordChar = [] then none
      else
        match (r.dropWhile isWordChar).dropWhile isJsSpace with
        | '=' :: r4 => some r4
        | _ => none

def removeOnHandlersAux : Nat → List Char → List Char
  | 0, s => s
  | _ + 1, [] => []
  | fuel + 1, c :: rest =>
      match matchOnHandler (c :: rest) with
      | some r => removeOnHandlersAux fuel r
      | none => c :: removeOnHandlersAux fuel rest

def removeOnHandlers (s : String) : String :=
  String.mk (removeOnHandlersAux (s.length + 1) s.toList)

/-- Lazy search for the literal closing script tag, failing at a line
terminator because the dot of the source pattern does not cross lines. -/
def scriptCloseSearch : Nat → List Char → Option (List Char)
  | 0, _ => none
  | fuel + 1, s =>
      match stripPrefixCI "</script>".toList s with
      | some r => some r
      | none =>
          match s with
          | [] => none
          | c :: rest =>
              if c = '\n' || c = '\r' then none else scriptCloseSearch fuel rest

/-- Match of the script-element pattern at the head of the list: the
opening tag name, attribute characters other than the closing angle
bracket, the bracket itself, then the lazily-reached closing tag. -/
def matchScriptTag (fuel : Nat) (s : List Char) : Option (List Char) :=
  match stripPrefixCI "<script".toList s with
  | none => none
  | some r =>
      match r.dropWhile (fun c => c ≠ '>') with
      | '>' :: r2 => scriptCloseSearch fuel r2
      | _ => none

def removeScriptTagsAux : Nat → List Char → List Char
  | 0, s => s
  | _ + 1, [] => []
  | fuel + 1, c :: rest =>
      match matchScriptTag (fuel + 1) (c :: rest) with
      | some r => removeScriptTagsAux fuel r
      | none => c :: removeScriptTagsAux fuel rest

def removeScriptTags (s : String) : String :=
  String.mk (removeScriptTagsAux (s.length + 1) s.toList)

/-- SecurityUtils.sanitizeText: escape the HTML, then strip script
elements, the javascript scheme and inline event handlers, in the order
of the source. -/
def sanitizeText (text : String) : String :=
  if text = "" then ""
  else
    removeOnHandlers (removeAllCI "javascript:" (removeScriptTags (escapeHTML text)))

/-! ## The WHATWG URL constructor, as far as isValidURL exercises it

new URL(s) with no base succeeds exactly when s carries a valid scheme
and, for the special schemes, a well-formed non-empty host.  The model
below reproduces that decision and the protocol property for the class of
inputs treated in this development (absolute URLs without base, ASCII
hosts); IDNA mapping and percent-encoding inside the host are not
modelled. -/

def isSchemeTailChar (c : Char) : Bool :=
  c.isAlphanum || c = '+' || c = '-' || c = '.'

def validScheme : List Char → Bool
  | [] => false
  | c :: rest => c.isAlpha && rest.all isSchemeTailChar

/-- Schemes the URL standard treats as special with a required host. -/
def specialHostSchemes : List String := ["http", "https", "ws", "wss", "ftp"]

/-- Forbidden host code points of the URL standard. -/
def forbiddenHostChar (c : Char) : Bool :=
  c.toNat = 0 || c = '\t' || c = '\n' || c = '\r' || c = ' ' || c = '#' ||
  c = '/' || c = ':' || c = '<' || c = '>' || c = '?' || c = '@' ||
  c = '[' || c = '\\' || c = ']' || c = '^' || c = '|'

/-- Input preprocessing of the URL parser: trim C0 controls and spaces at
both ends, then remove every tabulation and newline. -/
def urlStripControls (s : List Char) : List Char :=
  let t := (((s.dropWhile (fun c => c.toNat ≤ 32)).reverse.dropWhile
      (fun c => c.toNat ≤ 32)).reverse)
  t.filter (fun c => ¬ (c = '\t' || c = '\n' || c = '\r'))

/-- Split at the first colon, returning the parts before and after it. -/
def splitAtColon : List Char → Option (List Char × List Char)
  | [] => none
  | ':' :: rest => some ([], rest)
  | c :: rest =>
      match splitAtColon rest with
      | some (a, b) => some (c :: a, b)
      | none => none

/-- The characters of the authority after the last commercial at. -/
def afterLastAt (l : List Char) : List Char :=
  (l.reverse.takeWhile (fun c => c ≠ '@')).reverse

/-- new URL(s): returns the protocol (lower-cased scheme with the
trailing colon) when parsing succeeds, none when the constructor throws. -/
def jsURLProtocol (s : String) : Option String :=
  match splitAtColon (urlStripControls s.toList) with
  | none => none
  | some (schemeRaw, rest) =>
      if validScheme schemeRaw then
        let scheme := String.mk (schemeRaw.map Char.toLower)
        if specialHostSchemes.contains scheme then
          let afterSlashes := rest.dropWhile (fun c => c = '/' || c = '\\')
          let authority := afterSlashes.takeWhile
            (fun c => ¬ (c = '/' || c = '\\' || c = '?' || c = '#'))
          let hostPort := afterLastAt authority
          let host := hostPort.takeWhile (fun c => c ≠ ':')
          let portOk :=
            match hostPort.dropWhile (fun c => c ≠ ':') with
            | [] => true
            | _ :: p => p.all Char.isDigit
          if host ≠ [] && host.all (fun c => ¬ forbiddenHostChar c) && portOk then
            some (scheme ++ ":")
          else none
        else if scheme = "file" then some "file:"
        else some (scheme ++ ":")
      else none

/-! ## QRRedirectManager.isValidURL and redirectToOriginal
(src/js/redirect.js, lines 188-270) -/

/-- Case-sensitive substring search, String.prototype.includes. -/
def startsWithL : List Char → List Char → Bool
  | [], _ => true
  | _ :: _, [] => false
  | p :: ps, c :: cs => p = c && startsWithL ps cs

def containsSubAux (pat : List Char) : Nat → List Char → Bool
  | 0, _ => false
  | fuel + 1, s =>
      startsWithL pat s ||
        match s with
        | [] => false
        | _ :: rest => containsSubAux pat fuel rest

def containsSub (s pat : String) : Bool :=
  containsSubAux pat.toList (s.length + 1) s.toList

def toLowerStr (s : String) : String := String.mk (s.toList.map Char.toLower)

/-- The dangerousPatterns array of isValidURL. -/
def dangerousPatterns : List String :=
  ["javascript:", "data:", "vbscript:", "file:", "ftp:", "about:", "blob:"]

/-- QRRedirectManager.isValidURL: accept only parsed http or https URLs
whose lower-cased text contains none of the dangerous scheme substrings;
when parsing throws, accept a dotted space-free string if prepending the
https scheme parses.  In that branch the source assigns the prefixed
string to the first slot of the arguments object, which in the strict
mode of a class body never reaches the caller's variable, so the function
communicates only the boolean. -/
def isValidURL (s : String) : Bool :=
  match jsURLProtocol s with
  | some proto =>
      if ¬ (proto = "http:" || proto = "https:") then false
      else if dangerousPatterns.any (fun p => containsSub (toLowerStr s) p) then false
      else true
  | none =>
      if containsSub s "." && ¬ containsSub s " " then
        match jsURLProtocol ("https://" ++ s) with
        | some _ => true
        | none => false
      else false

/-- Outcome of QRRedirectManager.redirectToOriginal: assignment to
window.location.href or the showTextContent rendering. -/
inductive RedirectOutcome where
  | navigate (url : String)
  | displayText (text : String)
deriving DecidableEq, Repr

/-- QRRedirectManager.redirectToOriginal: sanitize the content, then
navigate to the sanitized string when isValidURL accepts it and display
it as text otherwise.  Both arms receive sanitizedText itself; the
https-prefixed string computed inside isValidURL is discarded with the
arguments object. -/
def redirectToOriginal (originalText : String) : RedirectOutcome :=
  let sanitizedText := sanitizeText originalText
  if isValidURL sanitizedText then .navigate sanitizedText
  else .displayText sanitizedText

/-! ## Browser decoding built-ins used by getFallbackDataFromURL

decodeURIComponent, atob and JSON.parse can each throw; they are embedded
as Except-valued functions so that the try/catch of the caller is the
translation from Except to Option. -/

def hexVal (c : Char) : Option Nat :=
  if '0' ≤ c ∧ c ≤ '9' then some (c.toNat - '0'.toNat)
  else if 'a' ≤ c ∧ c ≤ 'f' then some (c.toNat - 'a'.toNat + 10)
  else if 'A' ≤ c ∧ c ≤ 'F' then some (c.toNat - 'A'.toNat + 10)
  else none

/-- UTF-8 encoding of one code point, written with division and remainder
so that the kernel can evaluate it. -/
def charUTF8Bytes (c : Char) : List Nat :=
  let n := c.toNat
  if n < 128 then [n]
  else if n < 2048 then [192 + n / 64, 128 + n % 64]
  else if n < 65536 then [224 + n / 4096, 128 + n / 64 % 64, 128 + n % 64]
  else [240 + n / 262144, 128 + n / 4096 % 64, 128 + n / 64 % 64, 128 + n % 64]

/-- Percent-decoding pass of decodeURIComponent: a percent sign must be
followed by two hexadecimal digits and yields that byte; any other
character contributes its UTF-8 bytes unchanged. -/
def percentDecode : List Char → Except String (List Nat)
  | [] => .ok []
  | '%' :: a :: b :: rest =>
      match hexVal a, hexVal b with
      | some x, some y => do
          let tail ← percentDecode rest
          return (16 * x + y) :: tail
      | _, _ => .error "URIError: malformed URI sequence"
  | '%' :: _ => .error "URIError: malformed URI sequence"
  | c :: rest => do
      let tail ← percentDecode rest
      return charUTF8Bytes c ++ tail

/-- Strict UTF-8 decoding of the percent-decoded bytes; decodeURIComponent
throws on overlong forms, surrogates and truncated sequences, which the
range conditions below reproduce. -/
def utf8Decode : Nat → List Nat → Except String (List Char)
  | _, [] => .ok []
  | 0, _ => .error "URIError: malformed URI sequence"
  | fuel + 1, b :: rest =>
      if b < 128 then do
        let tail ← utf8Decode fuel rest
        return Char.ofNat b :: tail
      else if 194 ≤ b ∧ b ≤ 223 then
        match rest with
        | c1 :: r =>
            if 128 ≤ c1 ∧ c1 < 192 then do
              let tail ← utf8Decode fuel r
              return Char.ofNat ((b - 192) * 64 + (c1 - 128)) :: tail
            else .error "URIError: malformed URI sequence"
        | _ => .error "URIError: malformed URI sequence"
      else if 224 ≤ b ∧ b ≤ 239 then
        match rest with
        | c1 :: c2 :: r =>
            let lo1 := if b = 224 then 160 else 128
            let hi1 := if b = 237 then 159 else 191
            if lo1 ≤ c1 ∧ c1 ≤ hi1 ∧ 128 ≤ c2 ∧ c2 < 192 then do
              let tail ← utf8Decode fuel r
              return Char.ofNat ((b - 224) * 4096 + (c1 - 128) * 64 + (c2 - 128)) :: tail
            else .error "URIError: malformed URI sequence"
        | _ => .error "URIError: malformed URI sequence"
      else if 240 ≤ b ∧ b ≤ 244 then
        match rest with
        | c1 :: c2 :: c3 :: r =>
            let lo1 := if b = 240 then 144 else 128
            let hi1 := if b = 244 then 143 else 191
            if lo1 ≤ c1 ∧ c1 ≤ hi1 ∧ 128 ≤ c2 ∧ c2 < 192 ∧ 128 ≤ c3 ∧ c3 < 192 then do
              let tail ← utf8Decode fuel r
              return Char.ofNat
                ((b - 240) * 262144 + (c1 - 128) * 4096 + (c2 - 128) * 64 + (c3 - 128)) :: tail
            else .error "URIError: malformed URI sequence"
        | _ => .error "URIError: malformed URI sequence"
      else .error "URIError: malformed URI sequence"

/-- decodeURIComponent: decode the percent sequences, then require the
byte sequence to be well-formed UTF-8. -/
def decodeURIComponent (s : String) : Except String String := do
  let bytes ← percentDecode s.toList
  let chars ← utf8Decode (bytes.length + 1) bytes
  return String.mk chars

/-- The base-64 alphabet value of a character. -/
def base64Val (c : Char) : Option Nat :=
  if 'A' ≤ c ∧ c ≤ 'Z' then some (c.toNat - 'A'.toNat)
  else if 'a' ≤ c ∧ c ≤ 'z' then some (c.toNat - 'a'.toNat + 26)
  else if '0' ≤ c ∧ c ≤ '9' then some (c.toNat - '0'.toNat + 52)
  else if c = '+' then some 62
  else if c = '/' then some 63
  else none

def isAsciiWhitespace (c : Char) : Bool :=
  c = ' ' || c = '\t' || c = '\n' || c = '\r' || c = Char.ofNat 12

/-- Sextet groups to bytes, with the forgiving-base64 treatment of the
final group of two or three sextets. -/
def b64Groups : List Nat → Except String (List Nat)
  | [] => .ok []
  | [_] => .error "InvalidCharacterError"
  | [a, b] => .ok [a * 4 + b / 16]
  | [a, b, c] => .ok [a * 4 + b / 16, b % 16 * 16 + c / 4]
  | a :: b :: c :: d :: rest => do
      let tail ← b64Groups rest
      return (a * 4 + b / 16) :: (b % 16 * 16 + c / 4) :: (c % 4 * 64 + d) :: tail

/-- window.atob, the forgiving-base64 decode: strip ASCII whitespace,
strip up to two trailing padding signs when the length is a multiple of
four, reject a remainder of one and any character outside the alphabet,
and map the decoded bytes to characters of the same code points. -/
def atob (s : String) : Except String String := do
  let t := s.toList.filter (fun c => ¬ isAsciiWhitespace c)
  let t :=
    if t.length % 4 = 0 then
      match t.reverse with
      | '=' :: '=' :: r => r.reverse
      | '=' :: r => r.reverse
      | _ => t
    else t
  if t.length % 4 = 1 then .error "InvalidCharacterError"
  else
    match (t.map base64Val).allSome with
    | none => .error "InvalidCharacterError"
    | some vals => do
        let bytes ← b64Groups vals
        return String.mk (bytes.map Char.ofNat)

/-! ## JSON.parse, modelled as a strict recursive-descent parser

Numbers are kept as their source token (their numeric value plays no
role here) and the Unicode escape is mapped through Char.ofNat, which
collapses the surrogate range; no input treated in this development
contains such an escape. -/

inductive Json where
  | null
  | bool (b : Bool)
  | num (raw : String)
  | str (s : String)
  | arr (elems : List Json)
  | obj (members : List (String × Json))

def jpIsWs (c : Char) : Bool := c = ' ' || c = '\t' || c = '\n' || c = '\r'

def jpSkipWs (l : List Char) : List Char := l.dropWhile jpIsWs

/-- Body of a JSON string literal after the opening quote: content and
remainder after the closing quote. -/
def jpString : Nat → List Char → Except String (List Char × List Char)
  | 0, _ => .error "SyntaxError: unterminated string"
  | _ + 1, [] => .error "SyntaxError: unterminated string"
  | fuel + 1, c :: rest =>
      if c = '"' then .ok ([], rest)
      else if c = '\\' then
        match rest with
        | [] => .error "SyntaxError: bad escape"
        | e :: r =>
            if e = '"' || e = '\\' || e = '/' then do
              let (s, r2) ← jpString fuel r
              return (e :: s, r2)
            else if e = 'b' then do
              let (s, r2) ← jpString fuel r
              return (Char.ofNat 8 :: s, r2)
            else if e = 'f' then do
              let (s, r2) ← jpString fuel r
              return (Char.ofNat 12 :: s, r2)
            else if e = 'n' then do
              let (s, r2) ← jpString fuel r
              return ('\n' :: s, r2)
            else if e = 'r' then do
              let (s, r2) ← jpString fuel r
              return ('\r' :: s, r2)
            else if e = 't' then do
              let (s, r2) ← jpString fuel r
              return ('\t' :: s, r2)
            else if e = 'u' then
              match r with
              | h1 :: h2 :: h3 :: h4 :: r2 =>
                  match hexVal h1, hexVal h2, hexVal h3, hexVal h4 with
                  | some a, some b, some cc, some d => do
                      let (s, r3) ← jpString fuel r2
                      return (Char.ofNat (a * 4096 + b * 256 + cc * 16 + d) :: s, r3)
                  | _, _, _, _ => .error "SyntaxError: bad unicode escape"
              | _ => .error "SyntaxError: bad unicode escape"
            else .error "SyntaxError: bad escape"
      else if c.toNat < 32 then .error "SyntaxError: control character in string"
      else do
        let (s, r2) ← jpString fuel rest
        return (c :: s, r2)

/-- A JSON number token: optional minus, strict integer part, optional
fraction and exponent.  Returns the token characters and the remainder. -/
def jpNumber (l : List Char) : Except String (List Char × List Char) :=
  let (sign, l1) := match l with
    | '-' :: r => (['-'], r)
    | _ => ([], l)
  match l1 with
  | '0' :: r =>
      match r with
      | c :: _ =>
          if c.isDigit then .error "SyntaxError: leading zero"
          else jpNumTail (sign ++ ['0']) r
      | [] => .ok (sign ++ ['0'], [])
  | c :: _ =>
      if c.isDigit then
        let ds := l1.takeWhile Char.isDigit
        jpNumTail (sign ++ ds) (l1.dropWhile Char.isDigit)
      else .error "SyntaxError: bad number"
  | [] => .error "SyntaxError: bad number"
where
  jpNumTail (acc : List Char) (l : List Char) : Except String (List Char × List Char) :=
    let (acc1, l1) :=
      match l with
      | '.' :: r =>
          if (r.takeWhile Char.isDigit) = [] then (none, l)
          else (some (acc ++ '.' :: r.takeWhile Char.isDigit), r.dropWhile Char.isDigit)
      | _ => (some acc, l)
    match acc1 with
    | none => .error "SyntaxError: bad number"
    | some acc2 =>
        match l1 with
        | e :: r =>
            if e = 'e' || e = 'E' then
              let (es, r1) := match r with
                | '+' :: rr => (['+'], rr)
                | '-' :: rr => (['-'], rr)
                | _ => ([], r)
              if (r1.takeWhile Char.isDigit) = [] then .error "SyntaxError: bad exponent"
              else .ok (acc2 ++ e :: es ++ r1.takeWhile Char.isDigit,
                        r1.dropWhile Char.isDigit)
            else .ok (acc2, l1)
        | [] => .ok (acc2, [])

mutual

/-- A JSON value at the head of the already whitespace-skipped input. -/
def jpValue : Nat → List Char → Except String (Json × List Char)
  | 0, _ => .error "SyntaxError: input too deep"
  | fuel + 1, l =>
      match l with
      | [] => .error "SyntaxError: unexpected end of input"
      | '"' :: rest => do
          let (s, r) ← jpString (rest.length + 1) rest
          return (Json.str (String.mk s), r)
      | '[' :: rest =>
          match jpSkipWs rest with
          | ']' :: r => .ok (Json.arr [], r)
          | r => do
              let (xs, r2) ← jpArrItems fuel r
              return (Json.arr xs, r2)
      | '{' :: rest =>
          match jpSkipWs rest with
          | '}' :: r => .ok (Json.obj [], r)
          | r => do
              let (ms, r2) ← jpObjItems fuel r
              return (Json.obj ms, r2)
      | c :: _ =>
          if startsWithL "true".toList l then .ok (Json.bool true, l.drop 4)
          else if startsWithL "false".toList l then .ok (Json.bool false, l.drop 5)
          else if startsWithL "null".toList l then .ok (Json.null, l.drop 4)
          else if c = '-' || c.isDigit then do
            let (tok, r) ← jpNumber l
            return (Json.num (String.mk tok), r)
          else .error "SyntaxError: unexpected token"

/-- Comma-separated array items up to the closing bracket. -/
def jpArrItems : Nat → List Char → Except String (List Json × List Char)
  | 0, _ => .error "SyntaxError: input too deep"
  | fuel + 1, l => do
      let (v, r) ← jpValue fuel (jpSkipWs l)
      match jpSkipWs r with
      | ',' :: r2 => do
          let (xs, r3) ← jpArrItems fuel r2
          return (v :: xs, r3)
      | ']' :: r2 => return ([v], r2)
      | _ => .error "SyntaxError: expected comma or closing bracket"

/-- Comma-separated object members up to the closing brace. -/
def jpObjItems : Nat → List Char → Except String (List (String × Json) × List Char)
  | 0, _ => .error "SyntaxError: input too deep"
  | fuel + 1, l =>
      match jpSkipWs l with
      | '"' :: rest => do
          let (k, r) ← jpString (rest.length + 1) rest
          match jpSkipWs r with
          | ':' :: r2 => do
              let (v, r3) ← jpValue fuel (jpSkipWs r2)
              match jpSkipWs r3 with
              | ',' :: r4 => do
                  let (ms, r5) ← jpObjItems fuel r4
                  return ((String.mk k, v) :: ms, r5)
              | '}' :: r4 => return ([(String.mk k, v)], r4)
              | _ => .error "SyntaxError: expected comma or closing brace"
          | _ => .error "SyntaxError: expected colon"
      | _ => .error "SyntaxError: expected string key"

end

/-- JSON.parse: one value surrounded by optional whitespace. -/
def jsonParse (s : String) : Except String Json :=
  match jpValue (2 * s.length + 4) (jpSkipWs s.toList) with
  | .ok (v, rest) =>
      if jpSkipWs rest = [] then .ok v
      else .error "SyntaxError: unexpected trailing characters"
  | .error e => .error e

/-! ## QRRedirectManager.getFallbackDataFromURL (src/js/redirect.js,
lines 71-85) -/

/-- The body of getFallbackDataFromURL before its try/catch: read the
data query parameter (absent or empty is falsy and yields null straight
away), then decodeURIComponent, atob and JSON.parse in the order of the
source, each able to throw. -/
def getFallbackDataBody (dataParam : Option String) : Except String (Option Json) :=
  match dataParam with
  | none => .ok none
  | some encodedData =>
      if encodedData = "" then .ok none
      else do
        let dec ← decodeURIComponent encodedData
        let bin ← atob dec
        let j ← jsonParse bin
        return some j

/-- getFallbackDataFromURL: the catch converts every thrown error into
null. -/
def getFallbackDataFromURL (dataParam : Option String) : Option Json :=
  match getFallbackDataBody dataParam with
  | .ok r => r
  | .error _ => none

/-! ## Shared store model

Both the networked store and the decrypted localStorage object are
embedded as association lists in insertion order; JS property update
replaces the value of an existing key in place and appends new keys. -/

def storeGet (m : List (String × QRRecord)) (k : String) : Option QRRecord :=
  (m.find? (fun p => p.1 == k)).map (fun p => p.2)

def storeSet : List (String × QRRecord) → String → QRRecord → List (String × QRRecord)
  | [], k, v => [(k, v)]
  | (k0, v0) :: rest, k, v =>
      if k0 == k then (k, v) :: rest else (k0, v0) :: storeSet rest k v

/-! ## FirebaseManager.checkForDuplicate (src/unnamed/part_002,
lines 246-282)

The Firebase query orders the children by createdAt ascending (ties in
the key order of the store, reproduced here by a stable insertion sort
on the stored order) and limitToLast keeps the final fifty; the
snapshot.forEach loop overwrites the duplicate variable on every match,
so the last match of that ascending traversal is returned.  The
localStorage branch iterates the object entries in insertion order and
returns the first match, over the whole store. -/

def insertByCreatedAt (r : QRRecord) : List QRRecord → List QRRecord
  | [] => [r]
  | x :: xs =>
      if r.createdAt ≤ x.createdAt then r :: x :: xs else x :: insertByCreatedAt r xs

def sortByCreatedAt : List QRRecord → List QRRecord
  | [] => []
  | x :: xs => insertByCreatedAt x (sortByCreatedAt xs)

/-- The exact-match predicate of both branches: originalText and name
must both agree. -/
def dupMatches (originalText name : String) (r : QRRecord) : Bool :=
  r.originalText == originalText && r.name == name

/-- State consulted by checkForDuplicate. -/
structure DupEnv where
  fbAvailable : Bool
  fbQueryFails : Bool
  fbStore : List QRRecord
  localReadFails : Bool
  localStore : List (String × QRRecord)

/-- FirebaseManager.checkForDuplicate.  fbAvailable embeds the condition
typeof firebase is not undefined and window.database is set; fbQueryFails
a rejected once call, answered by the catch with null; localReadFails an
internal CryptoManager.getItem failure, which resolves with null and so
iterates the empty object. -/
def checkForDuplicate (env : DupEnv) (originalText name : String) : Option QRRecord :=
  if env.fbAvailable then
    if env.fbQueryFails then none
    else
      let sorted := sortByCreatedAt env.fbStore
      let considered := sorted.drop (sorted.length - 50)
      considered.foldl
        (fun acc r => if dupMatches originalText name r then some r else acc) none
  else
    let entries := if env.localReadFails then [] else env.localStore
    (entries.find? (fun p => dupMatches originalText name p.2)).map (fun p => p.2)

/-- Modelled from the spec: scan at most the 50 most-recently-created
records, by createdAt descending, and return the first exact match in
that order, or null.  Stated over the records the examined store holds;
used as the comparison point for the refinement claim about
checkForDuplicate. -/
def specFindDuplicate (records : List QRRecord) (originalText name : String) :
    Option QRRecord :=
  (((sortByCreatedAt records).reverse).take 50).find? (dupMatches originalText name)

/-! ## FirebaseManager.createQRCode (src/unnamed/part_002, lines 297-330) -/

/-- State consulted by createQRCode.  fbSetOk is the resolution of the
networked set call; localSetOk stands for the last-resort plain
localStorage write inside CryptoManager.setItem, the only place the
local tier can still throw (a storage-quota failure). -/
structure CreateEnv where
  fbAvailable : Bool
  fbSetOk : Bool
  localReadFails : Bool
  localStore : List (String × QRRecord)
  localSetOk : Bool
  nowMs : Nat
  fracDigits : List Char

/-- FirebaseManager.createQRCode: build the record, write it to the
networked store when the SDK is initialised and otherwise to the
encrypted local cache, and convert any thrown error into the fixed
creation failure.  Returns the new id together with the resulting local
store (the networked path leaves the local store untouched; under
Firebase the createdAt field is replaced by the server timestamp, which
happens inside the external store and is not modelled). -/
def createQRCode (env : CreateEnv) (originalText name : String)
    (logoPath : Option String) : Except String (String × List (String × QRRecord)) :=
  let qrId := generateUniqueId env.nowMs env.fracDigits
  let qrData : QRRecord :=
    { id := qrId, name := name, originalText := originalText, logoPath := logoPath,
      scanCount := 0, createdAt := env.nowMs, lastScanned := none }
  if env.fbAvailable then
    if env.fbSetOk then .ok (qrId, env.localStore)
    else .error "Failed to save QR code. Please try again."
  else
    let localQRs := if env.localReadFails then [] else env.localStore
    if env.localSetOk then .ok (qrId, storeSet localQRs qrId qrData)
    else .error "Failed to save QR code. Please try again."

/-! ## FirebaseManager.incrementScanCount (src/unnamed/part_002,
lines 374-401) -/

/-- State consulted by incrementScanCount.  fbTxOk is the commit of the
transaction; serverNow the value the server timestamp placeholder
resolves to; nowMs the Date.now() reading of the local path. -/
structure IncEnv where
  fbAvailable : Bool
  fbTxOk : Bool
  fbStore : List (String × QRRecord)
  serverNow : Nat
  localReadFails : Bool
  localStore : List (String × QRRecord)
  nowMs : Nat

/-- FirebaseManager.incrementScanCount: on the networked path run the
transaction, which adds one to scanCount and stamps lastScanned when the
record exists and leaves the data untouched when it does not; on the
local path read the decrypted object and write it back only when the
record is present.  Every thrown error is caught and only logged.
Returns the networked store, the local store and whether an error was
caught. -/
def incrementScanCount (env : IncEnv) (qrId : String) :
    List (String × QRRecord) × List (String × QRRecord) × Bool :=
  if env.fbAvailable then
    if ¬ env.fbTxOk then (env.fbStore, env.localStore, true)
    else
      match storeGet env.fbStore qrId with
      | some cur =>
          (storeSet env.fbStore qrId
            { cur with scanCount := cur.scanCount + 1, lastScanned := some env.serverNow },
           env.localStore, false)
      | none => (env.fbStore, env.localStore, false)
  else
    let localQRs := if env.localReadFails then [] else env.localStore
    match storeGet localQRs qrId with
    | some cur =>
        (env.fbStore,
         storeSet localQRs qrId
           { cur with scanCount := cur.scanCount + 1, lastScanned := some env.nowMs },
         false)
    | none => (env.fbStore, env.localStore, false)

/-! ## QRRedirectManager.init (src/js/redirect.js, lines 101-176)

Each of the three consulted sources sits behind its own try/catch, so an
error from one source must not abort the chain; a source is embedded as
an oracle answering with an error, with null or with a record for the
requested id.  The fourth datum, this.fallbackData, is computed by the
constructor from the data query parameter and carried in the state. -/

structure RedirectEnv where
  qrId : Option String
  dataParam : Option String
  fbRead : Except Unit (Option QRRecord)
  encRead : Except Unit (Option QRRecord)
  legacyRead : Except Unit (Option QRRecord)
  incFails : Bool

/-- this.fallbackData, as assigned in the constructor. -/
def managerFallbackData (env : RedirectEnv) : Option Json :=
  getFallbackDataFromURL env.dataParam

/-- The qrData chain of init: Firebase, then the encrypted cache, then
the legacy unencrypted cache, each failure isolated and each null
falling through to the next source. -/
def sourceChain (env : RedirectEnv) : Option QRRecord :=
  let q1 : Option QRRecord :=
    match env.fbRead with
    | .ok (some d) => some d
    | _ => none
  let q2 : Option QRRecord :=
    match q1 with
    | some d => some d
    | none =>
        match env.encRead with
        | .ok (some d) => some d
        | _ => none
  match q2 with
  | some d => some d
  | none =>
      match env.legacyRead with
      | .ok (some d) => some d
      | _ => none

/-- What init leaves the user with: the error panel with a message, or
the redirect flow applied to the found record. -/
inductive InitOutcome where
  | errorShown (msg : String)
  | redirected (out : RedirectOutcome)
deriving DecidableEq, Repr

/-- QRRedirectManager.init: missing id shows the invalid-link error; an
exhausted chain shows the not-found error; otherwise the scan counter
increment is attempted inside its own try/catch (its failure is only
logged) and the flow continues to redirectToOriginal on the record's
originalText.  The second component records whether the increment was
attempted.  this.fallbackData is never consulted. -/
def redirectInit (env : RedirectEnv) : InitOutcome × Bool :=
  match env.qrId with
  | none => (.errorShown "Invalid QR code link. Missing identifier.", false)
  | some _ =>
      match sourceChain env with
      | none =>
          (.errorShown
            "QR code content not found. The code may have expired or the database may be temporarily unavailable.",
           false)
      | some qrData => (.redirected (redirectToOriginal qrData.originalText), true)

/-! ## Helper lemmas -/

theorem find?_append_cases {α : Type} (p : α → Bool) (l1 l2 : List α) :
    (l1 ++ l2).find? p =
      match l1.find? p with
      | some r => some r
      | none => l2.find? p := by
  induction l1 with
  | nil => rfl
  | cons a t ih =>
      simp only [List.cons_append, List.find?]
      cases p a <;> simp [ih]

/-- The overwrite fold of checkForDuplicate keeps the last match, which is
the first match of the reversed traversal. -/
theorem foldl_overwrite_eq_find?_reverse {α : Type} (p : α → Bool) (l : List α) :
    ∀ acc : Option α,
      l.foldl (fun acc r => if p r then some r else acc) acc =
        match l.reverse.find? p with
        | some r => some r
        | none => acc := by
  induction l with
  | nil => intro acc; rfl
  | cons a t ih =>
      intro acc
      simp only [List.foldl_cons, List.reverse_cons]
      rw [ih, find?_append_cases]
      cases h : t.reverse.find? p with
      | some r => rfl
      | none =>
          simp only [List.find?]
          cases hp : p a <;> simp [hp]

theorem reverse_drop_sub {α : Type} (l : List α) (k : Nat) :
    (l.drop (l.length - k)).reverse = l.reverse.take k := by
  induction l generalizing k with
  | nil => simp
  | cons a t ih =>
      cases k with
      | zero => simp
      | succ k' =>
          by_cases h : t.length + 1 ≤ k'.succ
          · rw [Nat.sub_eq_zero_of_le (by simpa using h)]
            rw [List.take_of_length_le (by simpa using h)]
            simp
          · have hlt : k'.succ ≤ t.length := by omega
            have : (a :: t).length - k'.succ = (t.length - k'.succ) + 1 := by
              simp only [List.length_cons]; omega
            rw [this, List.drop_succ_cons, ih]
            rw [List.reverse_cons, List.take_append_of_le_length (by simpa using hlt)]

/-! ## Claim theorems -/

/-- C3: resolving content that is the string javascript:alert(1) never
navigates; redirectToOriginal yields the text display of the sanitised
content (the gi-replacement strips the scheme, leaving alert(1)), and no
url makes the outcome a navigation. -/
theorem C3_javascript_scheme_never_navigates :
    redirectToOriginal "javascript:alert(1)" = RedirectOutcome.displayText "alert(1)"
    ∧ ∀ u : String,
        redirectToOriginal "javascript:alert(1)" ≠ RedirectOutcome.navigate u := by
  have h : redirectToOriginal "javascript:alert(1)"
      = RedirectOutcome.displayText "alert(1)" := by decide
  exact ⟨h, fun u hu => by rw [h] at hu; exact RedirectOutcome.noConfusion hu⟩

/-- C7: the bare domain google.com is classified safe by isValidURL (which
validates the https-prefixed copy), yet redirectToOriginal navigates to
the raw un-prefixed string, because the assignment to the arguments
object inside isValidURL never reaches the caller. -/
theorem C7_bare_domain_navigates_unprefixed :
    sanitizeText "google.com" = "google.com"
    ∧ isValidURL "google.com" = true
    ∧ jsURLProtocol "google.com" = none
    ∧ jsURLProtocol ("https://" ++ "google.com") = some "https:"
    ∧ redirectToOriginal "google.com" = RedirectOutcome.navigate "google.com"
    ∧ "google.com" ≠ "https://google.com" := by
  refine ⟨by decide, by decide, by decide, by decide, by decide, by decide⟩

/-- C8 counterexample: with the clock at 1673598123456 and a random draw
of one half (base-36 expansion i), generateUniqueId returns lcu940qo_i,
whose part after the separator has length 1, not at least 9. -/
theorem C8_counterexample :
    generateUniqueId 1673598123456 ['i'] = "lcu940qo_i"
    ∧ ¬ 9 ≤ (jsSubstrL (mathRandomToString36L ['i']) 2 9).length := by
  exact ⟨by decide, by decide⟩

/-- C8 amended: the result is the base-36 timestamp, the separator and
the first at most nine base-36 fraction digits of the random draw; the
suffix length is the minimum of nine and the number of digits, hence at
most nine (and nine exactly when the expansion has at least nine
digits). -/
theorem C8_id_structure (nowMs : Nat) (fracDigits : List Char) :
    generateUniqueId nowMs fracDigits
      = natToBase36 nowMs ++ "_" ++ String.mk (fracDigits.take 9)
    ∧ (jsSubstrL (mathRandomToString36L fracDigits) 2 9).length
        = min 9 fracDigits.length
    ∧ (jsSubstrL (mathRandomToString36L fracDigits) 2 9).length ≤ 9 := by
  cases fracDigits with
  | nil => exact ⟨rfl, rfl, by decide⟩
  | cons a l =>
      refine ⟨rfl, ?_, ?_⟩
      · simp [jsSubstrL, mathRandomToString36L, List.length_take]
        omega
      · simp [jsSubstrL, mathRandomToString36L]

/-- C5: canMakeRequest prunes the timestamps outside the 60000 ms window,
allows and records the call when fewer than ten remain and refuses
without recording otherwise; consequently eleven calls inside one window
answer true ten times then false, and a call after the window has passed
answers true again. -/
theorem C5_rate_limiter_window :
    (∀ (now : Nat) (u : String) (m : RLMap),
        canMakeRequest now u m =
          if ((rlGet m u).filter (fun t => now - t < 60000)).length < 10 then
            (true, rlSet m u (((rlGet m u).filter (fun t => now - t < 60000)) ++ [now]))
          else (false, m))
    ∧ (runCalls [0, 1, 2, 3, 4, 5, 6, 7, 8, 9, 10] []).1
        = [true, true, true, true, true, true, true, true, true, true, false]
    ∧ (canMakeRequest 70000 "anonymous" (runCalls [0, 1, 2, 3, 4, 5, 6, 7, 8, 9, 10] []).2).1
        = true := by
  refine ⟨?_, by decide, by decide⟩
  intro now u m
  unfold canMakeRequest rlTimeWindow rlMaxRequests
  by_cases h : ((rlGet m u).filter (fun t => now - t < 60000)).length < 10
  · rw [if_neg (by omega), if_pos h]
  · rw [if_pos (by omega), if_neg h]

/-- C1: with the identifier absent from the networked backend, the
encrypted cache and the legacy cache, and the data parameter carrying the
decodable payload for content https://example.com and label Demo (the
percent-escaped base-64 written by the generator), the constructor does
decode the payload into this.fallbackData, yet init answers the
not-found error and attempts no increment, and never reaches the
navigation the payload content would have produced. -/
theorem C1_inline_fallback_ignored :
    getFallbackDataFromURL
        (some "eyJ0ZXh0IjoiaHR0cHM6Ly9leGFtcGxlLmNvbSIsIm5hbWUiOiJEZW1vIn0%3D")
      = some (Json.obj [("text", Json.str "https://example.com"),
                        ("name", Json.str "Demo")])
    ∧ managerFallbackData
        { qrId := some "qr1",
          dataParam :=
            some "eyJ0ZXh0IjoiaHR0cHM6Ly9leGFtcGxlLmNvbSIsIm5hbWUiOiJEZW1vIn0%3D",
          fbRead := Except.ok none, encRead := Except.ok none,
          legacyRead := Except.ok none, incFails := false }
      = some (Json.obj [("text", Json.str "https://example.com"),
                        ("name", Json.str "Demo")])
    ∧ redirectInit
        { qrId := some "qr1",
          dataParam :=
            some "eyJ0ZXh0IjoiaHR0cHM6Ly9leGFtcGxlLmNvbSIsIm5hbWUiOiJEZW1vIn0%3D",
          fbRead := Except.ok none, encRead := Except.ok none,
          legacyRead := Except.ok none, incFails := false }
      = (InitOutcome.errorShown
          "QR code content not found. The code may have expired or the database may be temporarily unavailable.",
         false)
    ∧ redirectToOriginal "https://example.com"
      = RedirectOutcome.navigate "https://example.com" := by
  exact ⟨rfl, rfl, rfl, by decide⟩

/-- C2 counterexample: with the Firebase SDK initialised, the networked
set rejected, and the local tier in a state where its write would go
through, createQRCode throws the creation failure; the very same state
with the networked path out of the picture persists locally without
error, so the creation failed although only the networked tier failed. -/
theorem C2_counterexample :
    createQRCode
        { fbAvailable := true, fbSetOk := false, localReadFails := false,
          localStore := [], localSetOk := true, nowMs := 1673598123456,
          fracDigits := "4fzyo82mv".toList } "https://example.com" "Demo" none
      = Except.error "Failed to save QR code. Please try again."
    ∧ createQRCode
        { fbAvailable := false, fbSetOk := false, localReadFails := false,
          localStore := [], localSetOk := true, nowMs := 1673598123456,
          fracDigits := "4fzyo82mv".toList } "https://example.com" "Demo" none
      = Except.ok ("lcu940qo_4fzyo82mv",
          [("lcu940qo_4fzyo82mv",
            { id := "lcu940qo_4fzyo82mv", name := "Demo",
              originalText := "https://example.com", logoPath := none,
              scanCount := 0, createdAt := 1673598123456, lastScanned := none })]) := by
  exact ⟨rfl, rfl⟩

/-- C2 amended: the creation write goes to the networked backend when the
SDK is initialised and to the encrypted local cache otherwise, and it
fails, with the fixed creation-failure error, exactly when the write of
that selected tier fails; there is no fallback to the other tier on a
write error. -/
theorem C2_write_selected_tier (env : CreateEnv) (originalText name : String)
    (logoPath : Option String) :
    ((∃ e, createQRCode env originalText name logoPath = Except.error e)
        ↔ (if env.fbAvailable then env.fbSetOk else env.localSetOk) = false)
    ∧ ((∃ v, createQRCode env originalText name logoPath = Except.ok v)
        ↔ (if env.fbAvailable then env.fbSetOk else env.localSetOk) = true) := by
  rcases env with ⟨fb, fbok, lrf, ls, lok, now, fd⟩
  unfold createQRCode
  cases fb <;> cases fbok <;> cases lok <;> simp

/-- C4: whenever the chain of the three stored sources yields a record,
init attempts the increment and continues to the redirect flow on the
record's content, and the outcome is the same whether the increment
attempt fails or not: the failure is never surfaced. -/
theorem C4_increment_best_effort (env : RedirectEnv) (i : String) (d : QRRecord)
    (hid : env.qrId = some i) (hfound : sourceChain env = some d) :
    redirectInit env
      = (InitOutcome.redirected (redirectToOriginal d.originalText), true)
    ∧ (redirectInit { env with incFails := true }).1
        = (redirectInit { env with incFails := false }).1 := by
  rcases env with ⟨qid, dp, fb, enc, leg, incf⟩
  subst hid
  have h1 : sourceChain ⟨some i, dp, fb, enc, leg, true⟩ = some d := hfound
  have h2 : sourceChain ⟨some i, dp, fb, enc, leg, false⟩ = some d := hfound
  refine ⟨?_, ?_⟩
  · simp [redirectInit, hfound]
  · show (redirectInit ⟨some i, dp, fb, enc, leg, true⟩).1
        = (redirectInit ⟨some i, dp, fb, enc, leg, false⟩).1
    simp [redirectInit, h1, h2]

/-- Closed instance of the C4 theorem at a concrete state whose Firebase
read yields a record, the encrypted read throws, and the increment
attempt fails. -/
theorem C4_witness :
    redirectInit
        { qrId := some "qr1", dataParam := none,
          fbRead := Except.ok (some
            { id := "qr1", name := "Demo", originalText := "https://example.com",
              logoPath := none, scanCount := 3, createdAt := 100,
              lastScanned := none }),
          encRead := Except.error (), legacyRead := Except.ok none,
          incFails := true }
      = (InitOutcome.redirected (redirectToOriginal "https://example.com"), true)
    ∧ (redirectInit
        { qrId := some "qr1", dataParam := none,
          fbRead := Except.ok (some
            { id := "qr1", name := "Demo", originalText := "https://example.com",
              logoPath := none, scanCount := 3, createdAt := 100,
              lastScanned := none }),
          encRead := Except.error (), legacyRead := Except.ok none,
          incFails := true }).1
        = (redirectInit
        { qrId := some "qr1", dataParam := none,
          fbRead := Except.ok (some
            { id := "qr1", name := "Demo", originalText := "https://example.com",
              logoPath := none, scanCount := 3, createdAt := 100,
              lastScanned := none }),
          encRead := Except.error (), legacyRead := Except.ok none,
          incFails := false }).1 :=
  C4_increment_best_effort
    { qrId := some "qr1", dataParam := none,
      fbRead := Except.ok (some
        { id := "qr1", name := "Demo", originalText := "https://example.com",
          logoPath := none, scanCount := 3, createdAt := 100, lastScanned := none }),
      encRead := Except.error (), legacyRead := Except.ok none, incFails := true }
    "qr1"
    { id := "qr1", name := "Demo", originalText := "https://example.com",
      logoPath := none, scanCount := 3, createdAt := 100, lastScanned := none }
    rfl rfl

/-- C9: with the networked backend unavailable and no record under the
identifier in the local store, incrementScanCount catches nothing,
creates nothing and leaves both stores exactly as they were. -/
theorem C9_increment_missing_local_record (env : IncEnv) (qrId : String)
    (hfb : env.fbAvailable = false) (hread : env.localReadFails = false)
    (habs : storeGet env.localStore qrId = none) :
    incrementScanCount env qrId = (env.fbStore, env.localStore, false) := by
  simp [incrementScanCount, hfb, hread, habs]

/-- Closed instance of the C9 theorem at a concrete one-record store and
an identifier it does not contain. -/
theorem C9_witness :
    incrementScanCount
        { fbAvailable := false, fbTxOk := true, fbStore := [], serverNow := 0,
          localReadFails := false,
          localStore := [("a",
            { id := "a", name := "n", originalText := "t", logoPath := none,
              scanCount := 1, createdAt := 5, lastScanned := none })],
          nowMs := 9 } "b"
      = ([],
         [("a",
           { id := "a", name := "n", originalText := "t", logoPath := none,
             scanCount := 1, createdAt := 5, lastScanned := none })],
         false) :=
  C9_increment_missing_local_record _ "b" rfl rfl rfl

/-- C10: extracting the inline fallback payload never propagates a
thrown error: for every value of the data parameter the caught body
either returns a decoded value, which getFallbackDataFromURL passes on,
or throws, which getFallbackDataFromURL converts to null; concretely,
base-64 garbage and a payload decoding to non-JSON both yield null while
a well-formed payload decodes. -/
theorem C10_fallback_decode_total :
    (∀ d : Option String,
        (∃ r, getFallbackDataBody d = Except.ok r ∧ getFallbackDataFromURL d = r)
        ∨ (∃ e, getFallbackDataBody d = Except.error e
              ∧ getFallbackDataFromURL d = none))
    ∧ getFallbackDataFromURL (some "!!!") = none
    ∧ getFallbackDataBody (some "!!!") = Except.error "InvalidCharacterError"
    ∧ getFallbackDataFromURL (some "bm90anNvbg==") = none
    ∧ getFallbackDataFromURL
        (some "eyJ0ZXh0IjoiaHR0cHM6Ly9leGFtcGxlLmNvbSIsIm5hbWUiOiJEZW1vMSJ9")
      = some (Json.obj [("text", Json.str "https://example.com"),
                        ("name", Json.str "Demo1")]) := by
  refine ⟨?_, rfl, rfl, rfl, rfl⟩
  intro d
  cases h : getFallbackDataBody d with
  | ok r => exact Or.inl ⟨r, rfl, by simp [getFallbackDataFromURL, h]⟩
  | error e => exact Or.inr ⟨e, rfl, by simp [getFallbackDataFromURL, h]⟩

/-- C6 counterexample: on the local-cache branch with two matching
records stored in creation order, checkForDuplicate answers the first
stored match, while the first match in createdAt-descending order over
the records of that store is the other, more recent record. -/
theorem C6_counterexample :
    checkForDuplicate
        { fbAvailable := false, fbQueryFails := false, fbStore := [],
          localReadFails := false,
          localStore :=
            [("a", { id := "a", name := "Standup",
                     originalText := "https://meet.example/abc", logoPath := none,
                     scanCount := 0, createdAt := 100, lastScanned := none }),
             ("b", { id := "b", name := "Standup",
                     originalText := "https://meet.example/abc", logoPath := none,
                     scanCount := 0, createdAt := 200, lastScanned := none })] }
        "https://meet.example/abc" "Standup"
      = some { id := "a", name := "Standup",
               originalText := "https://meet.example/abc", logoPath := none,
               scanCount := 0, createdAt := 100, lastScanned := none }
    ∧ specFindDuplicate
        [{ id := "a", name := "Standup", originalText := "https://meet.example/abc",
           logoPath := none, scanCount := 0, createdAt := 100, lastScanned := none },
         { id := "b", name := "Standup", originalText := "https://meet.example/abc",
           logoPath := none, scanCount := 0, createdAt := 200, lastScanned := none }]
        "https://meet.example/abc" "Standup"
      = some { id := "b", name := "Standup",
               originalText := "https://meet.example/abc", logoPath := none,
               scanCount := 0, createdAt := 200, lastScanned := none }
    ∧ ({ id := "a", name := "Standup", originalText := "https://meet.example/abc",
         logoPath := none, scanCount := 0, createdAt := 100,
         lastScanned := none } : QRRecord)
      ≠ { id := "b", name := "Standup", originalText := "https://meet.example/abc",
          logoPath := none, scanCount := 0, createdAt := 200, lastScanned := none } := by
  exact ⟨by decide, by decide, by decide⟩

/-- C6 amended: on the networked branch checkForDuplicate agrees with the
specified bounded scan (the most-recently-created match among the fifty
records with greatest createdAt); on the local-cache branch it scans the
whole store in insertion order and answers the first match; any read
failure answers null. -/
theorem C6_tiered_duplicate_scan (env : DupEnv) (originalText name : String) :
    checkForDuplicate env originalText name
      = if env.fbAvailable then
          (if env.fbQueryFails then none
           else specFindDuplicate env.fbStore originalText name)
        else
          (if env.localReadFails then none
           else (env.localStore.find?
                   (fun p => dupMatches originalText name p.2)).map (fun p => p.2)) := by
  rcases env with ⟨fb, fq, fs, lrf, ls⟩
  cases fb with
  | false => cases lrf <;> simp [checkForDuplicate]
  | true =>
      cases fq with
      | true => simp [checkForDuplicate]
      | false =>
          simp only [checkForDuplicate, specFindDuplicate, if_true]
          rw [foldl_overwrite_eq_find?_reverse, reverse_drop_sub]
          cases h : ((sortByCreatedAt fs).reverse.take 50).find?
              (dupMatches originalText name) <;> simp [h]

end QRCore
